import Mathlib

/-!
Verification of the geometry library `auto-gis-with-rust`: a shallow embedding
of its data model (Point, MultiPoint, LineSegment, LineString, PolygonRing,
Polygon, MultiPolygon), its constructors, and its geometric predicates,
together with theorems settling the specification claims about them.

Finite `f64` coordinate values are modelled as exact rationals (all arithmetic
performed by the library on its claim-relevant inputs is exact); the one place
where IEEE non-finite results matter (division by a zero member count in
`MultiPoint::centroid`) is modelled separately with an `F64` type that carries
NaN and infinities.  A Rust panic (an `unwrap` of an `Err`) is modelled as
`Option.none`; the value a non-panicking run produces is wrapped in `some`.
-/

namespace AutoGis

/-- A coordinate pair, modelling a Rust `[f64; 2]` (exact rational model). -/
abbrev Coord := ℚ × ℚ

/-- Embeds `GeometryError` from `src/error.rs`: the single error kind
`TooFewCoords(usize)`. -/
inductive GeometryError where
  | tooFewCoords : Nat → GeometryError
deriving DecidableEq, Repr

/-- Embeds `helpers::get_float_coordinates` from `src/helpers.rs`: casts every
component of every coordinate to `f64`.  In this model the coordinates are
already the (exact images of the) `f64` values, so the cast of each component
is the identity; the structure of the map over the sequence is kept. -/
def get_float_coordinates (coordinates : List Coord) : List Coord :=
  coordinates.map (fun coordinate => coordinate)

/-- Embeds `Point` from `src/point.rs`: a newtype over `[f64; 2]`. -/
structure Point where
  c : Coord
deriving DecidableEq, Repr

namespace Point

/-- Embeds `Point::new`: builds the two-element coordinate array (the numeric
cast of each component is the identity in this model). -/
def new (x y : ℚ) : Point := ⟨(x, y)⟩

/-- The coordinate array a `Point` dereferences to (`[f64; 2]`). -/
def coordArray (p : Point) : List ℚ := [p.c.1, p.c.2]

/-- Embeds `self.len()` on the dereffed `[f64; 2]`: the array length. -/
def len (p : Point) : Nat := p.coordArray.length

/-- Embeds `Point::x`. -/
def x (p : Point) : ℚ := p.c.1

/-- Embeds `Point::y`. -/
def y (p : Point) : ℚ := p.c.2

/-- Embeds `Point::z`: `if self.len() <= 2 { None } else { Some(self[2]) }`
(the out-of-bounds index in the unreachable branch is modelled by `get?`). -/
def z (p : Point) : Option ℚ :=
  if p.len ≤ 2 then none else p.coordArray.get? 2

/-- Embeds `Point::m`: `if self.len() <= 3 { None } else { Some(self[3]) }`. -/
def m (p : Point) : Option ℚ :=
  if p.len ≤ 3 then none else p.coordArray.get? 3

/-- Embeds `<Point as Geometry>::centroid`: a copy of the point. -/
def centroid (p : Point) : Point := new p.x p.y

end Point

/-- Embeds `MultiPoint` from `src/point.rs`: a newtype over `Vec<Point>`. -/
structure MultiPoint where
  points : List Point
deriving DecidableEq, Repr

namespace MultiPoint

/-- Embeds `MultiPoint::num_geometries`: the length of the point vector. -/
def num_geometries (mp : MultiPoint) : Nat := mp.points.length

/-- Embeds `<MultiPoint as Geometry>::is_simple`: for each point, count the
points equal to it (itself included); as soon as a count exceeds 1 the loop
returns `false`; if no count ever does, the result is `true`. -/
def is_simple (mp : MultiPoint) : Bool :=
  mp.points.all (fun point =>
    mp.points.countP (fun other_point => other_point = point) ≤ 1)

end MultiPoint

/-- Embeds `LineSegment` from `src/line_string.rs`: a newtype over
`[[f64; 2]; 2]`. -/
structure LineSegment where
  c0 : Coord
  c1 : Coord
deriving DecidableEq, Repr

namespace LineSegment

/-- Embeds `LineSegment::new` (the numeric cast of each component is the
identity in this model). -/
def new (a b : Coord) : LineSegment := ⟨a, b⟩

/-- The coordinate array a `LineSegment` dereferences to (`[[f64; 2]; 2]`). -/
def coordArray (s : LineSegment) : List Coord := [s.c0, s.c1]

/-- Embeds `<LineSegment as Curve>::start_point`: a `Point` from `self[0]`. -/
def start_point (s : LineSegment) : Point := Point.new s.c0.1 s.c0.2

/-- Embeds `<LineSegment as Curve>::end_point`: a `Point` from `self[1]`. -/
def end_point (s : LineSegment) : Point := Point.new s.c1.1 s.c1.2

/-- Embeds `LineSegment::x_length`: end x minus start x. -/
def x_length (s : LineSegment) : ℚ := s.end_point.x - s.start_point.x

/-- Embeds `LineSegment::y_length`: end y minus start y. -/
def y_length (s : LineSegment) : ℚ := s.end_point.y - s.start_point.y

/-- Embeds `<LineSegment as Geometry>::centroid`:
`Point::new(self.x_length() / 2., self.y_length() / 2.)`. -/
def centroid (s : LineSegment) : Point :=
  Point.new (s.x_length / 2) (s.y_length / 2)

/-- Embeds `<LineSegment as Curve>::is_closed`: start point equals end
point. -/
def is_closed (s : LineSegment) : Bool := s.start_point = s.end_point

/-- Embeds `<LineSegment as Geometry>::is_simple`: for each coordinate of the
segment, count the coordinates equal to it (itself included); the loop returns
`false` as soon as a count exceeds 2 when the segment is closed, or exceeds 1
when it is not; otherwise the result is `true`. -/
def is_simple (s : LineSegment) : Bool :=
  s.coordArray.all (fun point =>
    s.coordArray.countP (fun other_point => other_point = point)
      ≤ if s.is_closed then 2 else 1)

/-- Embeds `<LineSegment as Curve>::is_ring`:
`self.is_closed() && self.is_simple()`. -/
def is_ring (s : LineSegment) : Bool := s.is_closed && s.is_simple

end LineSegment

/-- Embeds `LineString` from `src/line_string.rs`: a newtype over
`Vec<[f64; 2]>`. -/
structure LineString where
  coords : List Coord
deriving DecidableEq, Repr

namespace LineString

/-- Embeds `LineString::new`: fewer than 2 coordinates is the error
`TooFewCoords(n)` with `n` the input length; otherwise the coerced sequence is
stored as given. -/
def new (coordinates : List Coord) : Except GeometryError LineString :=
  let number_of_coordinates := coordinates.length
  if number_of_coordinates < 2 then
    .error (.tooFewCoords number_of_coordinates)
  else
    .ok ⟨get_float_coordinates coordinates⟩

end LineString

/-- Embeds `PolygonRing` from `src/polygon.rs`: a newtype over
`Vec<[f64; 2]>`. -/
structure PolygonRing where
  coords : List Coord
deriving DecidableEq, Repr

namespace PolygonRing

/-- Embeds `PolygonRing::new`: fewer than 3 coordinates is the error
`TooFewCoords(n)`; otherwise, when the first coordinate differs from the last
the first is pushed onto the end (forcing closure), else the sequence is
stored as-is.  The two in-bounds array accesses `float_coordinates[0]` and
`float_coordinates[number_of_coordinates - 1]` are modelled with `getD`. -/
def new (coordinates : List Coord) : Except GeometryError PolygonRing :=
  let number_of_coordinates := coordinates.length
  if number_of_coordinates < 3 then
    .error (.tooFewCoords number_of_coordinates)
  else
    let float_coordinates := get_float_coordinates coordinates
    if float_coordinates.getD 0 (0, 0)
        ≠ float_coordinates.getD (number_of_coordinates - 1) (0, 0) then
      .ok ⟨float_coordinates ++ [float_coordinates.getD 0 (0, 0)]⟩
    else
      .ok ⟨float_coordinates⟩

end PolygonRing

/-- Embeds `Polygon` from `src/polygon.rs`: a newtype over
`Vec<PolygonRing>`. -/
structure Polygon where
  rings : List PolygonRing
deriving DecidableEq, Repr

/-- Models Rust `Result::unwrap` on a ring-construction result: an `Ok` yields
its value, an `Err` panics (modelled as `none`). -/
def unwrapRing : Except GeometryError PolygonRing → Option PolygonRing
  | .ok ring => some ring
  | .error _ => none

namespace Polygon

/-- Embeds `Polygon::new`: builds each `PolygonRing` with
`PolygonRing::new(ring).unwrap()` and wraps the collected rings in `Ok`.  The
outer `Option` models panics: `none` is the panic of the first failing
`unwrap`; the declared `Result` return value is always `Ok` when no `unwrap`
panics. -/
def new (rings : List (List Coord)) : Option (Except GeometryError Polygon) :=
  (rings.mapM (fun ring => unwrapRing (PolygonRing.new ring))).map
    (fun polygon_rings => .ok ⟨polygon_rings⟩)

end Polygon

/-- Embeds `MultiPolygon` from `src/polygon.rs`: a newtype over
`Vec<Polygon>`. -/
structure MultiPolygon where
  polygons : List Polygon
deriving DecidableEq, Repr

/-- Models `collect::<Result<Vec<Polygon>, GeometryError>>()`: the first
`Err` short-circuits, otherwise the `Ok` values are collected in order. -/
def collectPolygons :
    List (Except GeometryError Polygon) → Except GeometryError (List Polygon)
  | [] => .ok []
  | .error e :: _ => .error e
  | .ok p :: rest => (collectPolygons rest).map (fun ps => p :: ps)

namespace MultiPolygon

/-- Embeds `<MultiPolygon as TryFrom<Vec<Vec<Vec<[T; 2]>>>>>::try_from`: maps
`Polygon::new` over the polygon inputs, collects the results with
short-circuiting, and wraps the collected polygons.  The outer `Option`
models panics propagating out of `Polygon::new`. -/
def tryFrom (vectors : List (List (List Coord))) :
    Option (Except GeometryError MultiPolygon) :=
  (vectors.mapM Polygon.new).map
    (fun results => (collectPolygons results).map (fun ps => ⟨ps⟩))

end MultiPolygon

/-- Model of an `f64` value for operations where IEEE non-finite results
matter: a finite value (exact rational), NaN, or a signed infinity. -/
inductive F64 where
  | fin : ℚ → F64
  | nan : F64
  | inf : F64
  | ninf : F64
deriving DecidableEq, Repr

namespace F64

/-- IEEE addition restricted to this model: finite plus finite is exact (no
overflow arises on the inputs considered), NaN propagates, and opposite
infinities give NaN. -/
def add : F64 → F64 → F64
  | fin a, fin b => fin (a + b)
  | nan, _ => nan
  | _, nan => nan
  | inf, ninf => nan
  | ninf, inf => nan
  | inf, _ => inf
  | _, inf => inf
  | ninf, _ => ninf
  | _, ninf => ninf

/-- IEEE division restricted to this model: zero divided by zero is NaN, a
nonzero finite value divided by zero is a signed infinity, finite by nonzero
finite is exact, and NaN propagates. -/
def div : F64 → F64 → F64
  | fin a, fin b =>
      if b = 0 then
        if a = 0 then nan else if 0 < a then inf else ninf
      else fin (a / b)
  | nan, _ => nan
  | _, nan => nan
  | inf, fin b => if 0 ≤ b then inf else ninf
  | ninf, fin b => if 0 ≤ b then ninf else inf
  | _, _ => nan

end F64

/-- A point with `F64` coordinates, the codomain of the IEEE-faithful model of
`MultiPoint::centroid`. -/
structure PointF where
  x : F64
  y : F64
deriving DecidableEq, Repr

/-- Embeds `<MultiPoint as Geometry>::centroid` over the `F64` model: the
member count cast to `f64`, the summed x and y coordinates (a fold of IEEE
addition starting from zero, as `Iterator::sum` performs), and the per-axis
division by the count. -/
def MultiPoint.centroidF (points : List (ℚ × ℚ)) : PointF :=
  let count : F64 := .fin (points.length : ℚ)
  let sum_x : F64 := points.foldl (fun acc p => acc.add (.fin p.1)) (.fin 0)
  let sum_y : F64 := points.foldl (fun acc p => acc.add (.fin p.2)) (.fin 0)
  ⟨sum_x.div count, sum_y.div count⟩

end AutoGis

open AutoGis

theorem get_float_coordinates_id (coordinates : List Coord) :
    get_float_coordinates coordinates = coordinates := by
  simp [get_float_coordinates]

theorem getD_zero_of_head? {l : List Coord} {a : Coord}
    (h : l.head? = some a) (d : Coord) : l.getD 0 d = a := by
  cases l with
  | nil => simp at h
  | cons b t =>
    simp only [List.head?] at h
    simp [List.getD, Option.some.inj h]

theorem getD_pred_of_getLast? {l : List Coord} {a : Coord}
    (h : l.getLast? = some a) (d : Coord) : l.getD (l.length - 1) d = a := by
  have hne : l ≠ [] := by
    intro he
    subst he
    simp at h
  have hlt : l.length - 1 < l.length := by
    have := List.length_pos.mpr hne
    omega
  rw [List.getD_eq_getElem _ _ hlt, ← List.getLast_eq_getElem l hne]
  rw [List.getLast?_eq_getLast_of_ne_nil hne] at h
  exact Option.some.inj h

/-- C4: LineString::new fails with TooFewCoords(n), where n is the exact input
length, if and only if the input has fewer than 2 coordinates; with at least 2
coordinates it succeeds and stores the coerced sequence unmodified, in order,
with no auto-closure. -/
theorem lineString_new_guard (coordinates : List Coord) :
    (LineString.new coordinates
        = .error (.tooFewCoords coordinates.length)
      ↔ coordinates.length < 2)
    ∧ (2 ≤ coordinates.length →
        LineString.new coordinates = .ok ⟨coordinates⟩) := by
  by_cases h : coordinates.length < 2
  · refine ⟨by simp [LineString.new, h], fun h2 => ?_⟩
    omega
  · refine ⟨?_, fun _ => by simp [LineString.new, h, get_float_coordinates_id]⟩
    simp [LineString.new, h, get_float_coordinates_id]

/-- Witness for C4 at a concrete input with two coordinates. -/
theorem lineString_new_guard_witness :
    LineString.new [(0, 0), (1, 1)] = .ok ⟨[(0, 0), (1, 1)]⟩ :=
  (lineString_new_guard [(0, 0), (1, 1)]).2 (by decide)

/-- C5: PolygonRing::new with at most 2 input coordinates fails with
TooFewCoords(n); with at least 3 it succeeds, and the stored sequence has
length n when the input's first and last coordinates already coincide and
length n plus 1 otherwise. -/
theorem polygonRing_new_guard (coordinates : List Coord) :
    (coordinates.length ≤ 2 →
      PolygonRing.new coordinates
        = .error (.tooFewCoords coordinates.length))
    ∧ (3 ≤ coordinates.length →
      ∃ ring, PolygonRing.new coordinates = .ok ring ∧
        ring.coords.length =
          if coordinates.head? = coordinates.getLast? then coordinates.length
          else coordinates.length + 1) := by
  constructor
  · intro h2
    have h : coordinates.length < 3 := by omega
    rw [PolygonRing.new, if_pos h]
  · intro h3
    have h : ¬ coordinates.length < 3 := by omega
    have hnil : coordinates ≠ [] := by
      intro he
      subst he
      simp at h3
    have ha : coordinates.head? = some (coordinates.head hnil) :=
      List.head?_eq_head hnil
    have hb : coordinates.getLast? = some (coordinates.getLast hnil) :=
      List.getLast?_eq_getLast_of_ne_nil hnil
    have hga := getD_zero_of_head? ha ((0 : ℚ), (0 : ℚ))
    have hgb := getD_pred_of_getLast? hb ((0 : ℚ), (0 : ℚ))
    by_cases hab : coordinates.head hnil = coordinates.getLast hnil
    · have hcond : ¬ (get_float_coordinates coordinates).getD 0 (0, 0)
          ≠ (get_float_coordinates coordinates).getD
              (coordinates.length - 1) (0, 0) := by
        rw [get_float_coordinates_id, hga, hgb, hab]
        exact fun hc => hc rfl
      refine ⟨⟨coordinates⟩, ?_, ?_⟩
      · rw [PolygonRing.new, if_neg h, if_neg hcond, get_float_coordinates_id]
      · rw [if_pos (ha ▸ hb ▸ hab ▸ rfl)]
    · have hcond : (get_float_coordinates coordinates).getD 0 (0, 0)
          ≠ (get_float_coordinates coordinates).getD
              (coordinates.length - 1) (0, 0) := by
        rw [get_float_coordinates_id, hga, hgb]
        exact hab
      refine ⟨⟨coordinates ++ [coordinates.head hnil]⟩, ?_, ?_⟩
      · rw [PolygonRing.new, if_neg h, if_pos hcond,
          get_float_coordinates_id, hga]
      · rw [if_neg ?_]
        · simp
        · rw [ha, hb]
          intro hc
          exact hab (Option.some.inj hc)

/-- Witness for C5 at a concrete open three-coordinate input. -/
theorem polygonRing_new_guard_witness :
    ∃ ring, PolygonRing.new [(0, 0), (0, 1), (1, 1)] = .ok ring ∧
      ring.coords.length =
        if ([((0 : ℚ), (0 : ℚ)), (0, 1), (1, 1)] : List Coord).head?
            = ([((0 : ℚ), (0 : ℚ)), (0, 1), (1, 1)] : List Coord).getLast?
        then 3 else 3 + 1 :=
  (polygonRing_new_guard [(0, 0), (0, 1), (1, 1)]).2 (by decide)

/-- C6: for a sequence of at least 3 coordinates whose first and last entries
differ, PolygonRing::new on that sequence and PolygonRing::new on the same
sequence with its first coordinate appended at the end produce identical
results, storing the same closed sequence. -/
theorem polygonRing_closure_idempotent (coordinates : List Coord) (c0 : Coord)
    (hhead : coordinates.head? = some c0)
    (hlen : 3 ≤ coordinates.length)
    (hne : coordinates.getLast? ≠ some c0) :
    PolygonRing.new coordinates = PolygonRing.new (coordinates ++ [c0]) := by
  have hnil : coordinates ≠ [] := by
    intro he
    subst he
    simp at hlen
  have h : ¬ coordinates.length < 3 := by omega
  have hb : coordinates.getLast? = some (coordinates.getLast hnil) :=
    List.getLast?_eq_getLast_of_ne_nil hnil
  have hbc : coordinates.getLast hnil ≠ c0 := by
    intro he
    exact hne (he ▸ hb)
  have hga := getD_zero_of_head? hhead ((0 : ℚ), (0 : ℚ))
  have hgb := getD_pred_of_getLast? hb ((0 : ℚ), (0 : ℚ))
  have hcond : (get_float_coordinates coordinates).getD 0 (0, 0)
      ≠ (get_float_coordinates coordinates).getD
          (coordinates.length - 1) (0, 0) := by
    rw [get_float_coordinates_id, hga, hgb]
    exact fun he => hbc he.symm
  have hlhs : PolygonRing.new coordinates = .ok ⟨coordinates ++ [c0]⟩ := by
    rw [PolygonRing.new, if_neg h, if_pos hcond, get_float_coordinates_id,
      hga]
  have hhead2 : (coordinates ++ [c0]).head? = some c0 := by
    rw [List.head?_append_of_ne_nil _ hnil]
    exact hhead
  have hlast2 : (coordinates ++ [c0]).getLast? = some c0 :=
    List.getLast?_concat coordinates
  have hga2 := getD_zero_of_head? hhead2 ((0 : ℚ), (0 : ℚ))
  have hgb2 := getD_pred_of_getLast? hlast2 ((0 : ℚ), (0 : ℚ))
  have h2 : ¬ (coordinates ++ [c0]).length < 3 := by
    simp only [List.length_append, List.length_cons, List.length_nil]
    omega
  have hcond2 : ¬ (get_float_coordinates (coordinates ++ [c0])).getD 0 (0, 0)
      ≠ (get_float_coordinates (coordinates ++ [c0])).getD
          ((coordinates ++ [c0]).length - 1) (0, 0) := by
    rw [get_float_coordinates_id, hga2, hgb2]
    exact fun hc => hc rfl
  have hrhs : PolygonRing.new (coordinates ++ [c0])
      = .ok ⟨coordinates ++ [c0]⟩ := by
    rw [PolygonRing.new, if_neg h2, if_neg hcond2, get_float_coordinates_id]
  rw [hlhs, hrhs]

/-- Witness for C6 at a concrete open three-coordinate input. -/
theorem polygonRing_closure_idempotent_witness :
    PolygonRing.new [(0, 0), (0, 1), (1, 1)]
      = PolygonRing.new ([(0, 0), (0, 1), (1, 1)] ++ [(0, 0)]) :=
  polygonRing_closure_idempotent [(0, 0), (0, 1), (1, 1)] (0, 0)
    (by decide) (by decide) (by decide)

/-- C7: every successfully constructed PolygonRing stores at least 3
coordinates and its first stored coordinate equals its last; rings are
immutable after construction, so this holds of every reachable ring. -/
theorem polygonRing_invariant (coordinates : List Coord) (ring : PolygonRing)
    (h : PolygonRing.new coordinates = .ok ring) :
    3 ≤ ring.coords.length ∧ ring.coords.head? = ring.coords.getLast? := by
  by_cases hlen : coordinates.length < 3
  · rw [PolygonRing.new, if_pos hlen] at h
    exact absurd h (by simp)
  · have hnil : coordinates ≠ [] := by
      intro he
      subst he
      simp at hlen
    have ha : coordinates.head? = some (coordinates.head hnil) :=
      List.head?_eq_head hnil
    have hb : coordinates.getLast? = some (coordinates.getLast hnil) :=
      List.getLast?_eq_getLast_of_ne_nil hnil
    have hga := getD_zero_of_head? ha ((0 : ℚ), (0 : ℚ))
    have hgb := getD_pred_of_getLast? hb ((0 : ℚ), (0 : ℚ))
    by_cases hab : coordinates.head hnil = coordinates.getLast hnil
    · have hcond : ¬ (get_float_coordinates coordinates).getD 0 (0, 0)
          ≠ (get_float_coordinates coordinates).getD
              (coordinates.length - 1) (0, 0) := by
        rw [get_float_coordinates_id, hga, hgb, hab]
        exact fun hc => hc rfl
      rw [PolygonRing.new, if_neg hlen, if_neg hcond,
        get_float_coordinates_id] at h
      have hok : ring = ⟨coordinates⟩ := (Except.ok.inj h).symm
      subst hok
      refine ⟨?_, ?_⟩
      · show 3 ≤ coordinates.length
        omega
      · rw [ha, hb, hab]
    · have hcond : (get_float_coordinates coordinates).getD 0 (0, 0)
          ≠ (get_float_coordinates coordinates).getD
              (coordinates.length - 1) (0, 0) := by
        rw [get_float_coordinates_id, hga, hgb]
        exact hab
      rw [PolygonRing.new, if_neg hlen, if_pos hcond,
        get_float_coordinates_id, hga] at h
      have hok : ring = ⟨coordinates ++ [coordinates.head hnil]⟩ :=
        (Except.ok.inj h).symm
      subst hok
      constructor
      · simp only [List.length_append, List.length_cons, List.length_nil]
        omega
      · rw [List.head?_append_of_ne_nil _ hnil, ha,
          List.getLast?_concat coordinates]

/-- Witness for C7 at a concrete successfully constructed ring. -/
theorem polygonRing_invariant_witness :
    3 ≤ (PolygonRing.mk [(0, 0), (0, 1), (1, 1), (0, 0)]).coords.length
    ∧ (PolygonRing.mk
        [(0, 0), (0, 1), (1, 1), (0, 0)]).coords.head?
      = (PolygonRing.mk
        [(0, 0), (0, 1), (1, 1), (0, 0)]).coords.getLast? :=
  polygonRing_invariant [(0, 0), (0, 1), (1, 1)]
    (PolygonRing.mk [(0, 0), (0, 1), (1, 1), (0, 0)]) rfl

/-- C8: MultiPoint::is_simple returns true exactly when no two members at
distinct positions have identical coordinates; in particular the
MultiPoint of (0,0) and (1,0) is simple and the MultiPoint of (0,0) twice
is not. -/
theorem multiPoint_is_simple_iff (mp : MultiPoint) :
    (mp.is_simple = true ↔
      ∀ i j : Fin mp.points.length,
        i ≠ j → mp.points.get i ≠ mp.points.get j)
    ∧ (MultiPoint.mk [Point.new 0 0, Point.new 1 0]).is_simple = true
    ∧ (MultiPoint.mk [Point.new 0 0, Point.new 0 0]).is_simple = false := by
  refine ⟨?_, by decide, by decide⟩
  have hc : ∀ p : Point,
      mp.points.countP (fun other_point => other_point = p)
        = mp.points.count p := fun p => rfl
  have hcount : mp.is_simple = true ↔ ∀ p ∈ mp.points, mp.points.count p ≤ 1 := by
    simp only [MultiPoint.is_simple, List.all_eq_true, hc, decide_eq_true_eq]
  have hnodup : (∀ p ∈ mp.points, mp.points.count p ≤ 1) ↔ mp.points.Nodup := by
    constructor
    · intro hall
      rw [List.nodup_iff_count_le_one]
      intro a
      by_cases hm : a ∈ mp.points
      · exact hall a hm
      · simp [List.count_eq_zero_of_not_mem hm]
    · intro hnd p _
      exact List.nodup_iff_count_le_one.mp hnd p
  rw [hcount, hnodup, List.nodup_iff_injective_get]
  constructor
  · intro hinj i j hij heq
    exact hij (hinj heq)
  · intro hpair x y hxy
    by_contra hne
    exact hpair x y hne hxy

/-- Witness for C8: the iff applied to a concrete duplicate-free
MultiPoint. -/
theorem multiPoint_is_simple_iff_witness :
    (MultiPoint.mk [Point.new 0 0, Point.new 1 0]).is_simple = true :=
  ((multiPoint_is_simple_iff
    (MultiPoint.mk [Point.new 0 0, Point.new 1 0])).1).mpr (by decide)

/-- C9: LineSegment::is_ring returns true exactly when both is_closed and
is_simple do; the segment from (0,0) to (1,1) is not closed, and the
degenerate segment at (0,0) is closed, simple, and a ring. -/
theorem lineSegment_is_ring_iff (s : LineSegment) :
    (s.is_ring = true ↔ (s.is_closed = true ∧ s.is_simple = true))
    ∧ (LineSegment.new (0, 0) (1, 1)).is_closed = false
    ∧ (LineSegment.new (0, 0) (0, 0)).is_closed = true
    ∧ (LineSegment.new (0, 0) (0, 0)).is_simple = true
    ∧ (LineSegment.new (0, 0) (0, 0)).is_ring = true := by
  refine ⟨?_, by decide, by decide, by decide, by decide⟩
  simp [LineSegment.is_ring]

/-- Witness for C9: the iff applied to the concrete degenerate segment. -/
theorem lineSegment_is_ring_iff_witness :
    (LineSegment.new (0, 0) (0, 0)).is_ring = true :=
  ((lineSegment_is_ring_iff (LineSegment.new (0, 0) (0, 0))).1).mpr
    (by constructor <;> decide)

/-- C10: Point::z and Point::m return None for every Point: a Point stores
exactly two components, so the optional third and fourth coordinates are
never present. -/
theorem point_z_m_none (p : Point) : p.z = none ∧ p.m = none := by
  constructor <;> simp [Point.z, Point.m, Point.len, Point.coordArray]

/-- Witness for C10 at a concrete Point. -/
theorem point_z_m_none_witness :
    (Point.new 0 1).z = none ∧ (Point.new 0 1).m = none :=
  point_z_m_none (Point.new 0 1)

/-- C1: evidence of the code bug in LineSegment::centroid: the code computes
half the coordinate deltas rather than the midpoint, so the centroid of the
segment from (1,1) to (3,3) evaluates to POINT (1 1) instead of the midpoint
POINT (2 2); the specification example works only because its segment starts
at the origin, where the two formulas coincide. -/
theorem lineSegment_centroid_bug_eval :
    (LineSegment.new (1, 1) (3, 3)).centroid = Point.new 1 1
    ∧ (LineSegment.new (1, 1) (3, 3)).centroid
        ≠ Point.new ((1 + 3) / 2) ((1 + 3) / 2)
    ∧ (LineSegment.new (0, 0) (4, 3)).centroid
        = Point.new ((0 + 4) / 2) ((0 + 3) / 2) := by
  refine ⟨?_, ?_, ?_⟩ <;>
    simp [LineSegment.centroid, LineSegment.new, LineSegment.x_length,
      LineSegment.y_length, LineSegment.start_point, LineSegment.end_point,
      Point.new, Point.x, Point.y] <;>
    norm_num

/-- C2: evidence of the code bug in the MultiPolygon conversion: converting
an input whose only ring has two coordinates panics inside the unwrap in
Polygon::new (modelled as none) instead of returning the ring-construction
error as a recoverable value, while an input whose rings all have at least
three coordinates converts successfully. -/
theorem multiPolygon_tryFrom_panic_eval :
    MultiPolygon.tryFrom [[[(0, 0), (1, 1)]]] = none
    ∧ MultiPolygon.tryFrom [[[(0, 0), (0, 1), (1, 1)]]]
        = some (.ok ⟨[⟨[⟨[(0, 0), (0, 1), (1, 1), (0, 0)]⟩]⟩]⟩) :=
  ⟨rfl, rfl⟩

/-- C3: evidence of the code bug in MultiPoint::centroid on an empty
collection: the member count is zero, both coordinate sums are zero, and the
IEEE divisions 0/0 silently yield a point whose coordinates are both NaN; no
error value is produced (the operation is infallible by type). -/
theorem multiPoint_empty_centroid_nan_eval :
    MultiPoint.centroidF [] = ⟨F64.nan, F64.nan⟩ := rfl
